import Mathlib

set_option maxHeartbeats 1000000

/-!
Shallow embedding of caffe2's `EigenConvOp<T>` from
`src/caffe2/operators/conv_op_eigen.cc`, together with theorems about the
two entry points `RunOnDeviceWithOrderNCHW` and `RunOnDeviceWithOrderNHWC`.

Tensors are modelled as flat row-major buffers (`List Int`) with an explicit
dimension list, exactly mirroring the contiguous caller-provided buffers the
operator works on.  Element type `T` is modelled by `Int` (exact arithmetic).

The Eigen building blocks used by the source are embedded as follows:
* `extract_image_patches(...).reshape(pre_contract_dims)` becomes
  `patchMatrixEntry` (row = (n, y, x) row-major over the output positions,
  column = (i, j, c) row-major over the receptive field); out-of-range
  samples are zero-filled, matching Eigen's padding value 0.
* `.contract(filter.reshape(kernel_dims), contract_dims)` becomes the
  `Finset` sum in `contractData`.
* the `Eigen::Array` transpose producing `temp_filter` (NHWC path) becomes
  `temp_filter`.
* the three `shuffle` calls of the NCHW path become `shuffleKernelNCHW`,
  `shuffleInputNCHW` and `shuffleOutputNCHW` (explicit copies, exactly as
  Eigen materializes the shuffles into fresh row-major tensors).
* `Y_arr = Y_arr.colwise() + bias_arr` becomes `biasAdd`: the output buffer
  viewed column-major as an (M, size/M) array gains `bias[q % M]` at flat
  position `q`.
-/

/-- The convolution arguments held by `ConvPoolOpBase` (kernel size, stride,
dilation, and the four independent paddings), as used by the operator. -/
structure ConvParams where
  kernel_h : Nat
  kernel_w : Nat
  stride_h : Nat
  stride_w : Nat
  dilation_h : Nat
  dilation_w : Nat
  pad_t : Nat
  pad_b : Nat
  pad_l : Nat
  pad_r : Nat
deriving DecidableEq

/-- A caller-owned tensor: a dimension list plus a flat row-major buffer. -/
structure Tensor where
  dims : List Nat
  data : List Int
deriving DecidableEq

/-- The operator's view of the workspace: the three inputs
(`INPUT`, `FILTER`, `BIAS`) and the output `Y`. -/
structure Workspace where
  X : Tensor
  filter : Tensor
  bias : Tensor
  Y : Tensor
deriving DecidableEq

/-- Failure conditions of one invocation: `invalidShape` models a
`CAFFE_ENFORCE` failure on the shape checks, `inconsistentOutputSize` the
output-buffer size mismatch condition of the spec's §7. -/
inductive ConvError where
  | invalidShape
  | inconsistentOutputSize
deriving DecidableEq

/-- Outcome of one invocation.  An `err` outcome carries the workspace as it
stands when the failure is raised (the C++ code throws, leaving all buffers
as they were). -/
inductive ConvResult where
  | ok (ws : Workspace)
  | err (e : ConvError) (ws : Workspace)
deriving DecidableEq

/-- The workspace left behind by an invocation, successful or not. -/
def ConvResult.workspace : ConvResult → Workspace
  | .ok ws => ws
  | .err _ ws => ws

/-- Row-major flat index of element `(i0, i1, i2, i3)` in a 4-D tensor whose
last three dimensions are `d1, d2, d3`. -/
def flat4 (d1 d2 d3 : Nat) (i0 i1 i2 i3 : Nat) : Nat :=
  ((i0 * d1 + i1) * d2 + i2) * d3 + i3

/-- Modelled from the spec: `ConvPoolOpBase<CPUContext>::SetOutputSize`
(declared in `caffe2/operators/conv_pool_op_base.h`, not part of the source
here) computes each output spatial dimension as
`floor((in + padBefore + padAfter - (dilation*(kernel-1)+1)) / stride) + 1`
(§4.3 of the spec). -/
def outputSizeDim (inD padBefore padAfter kernel dilation stride : Nat) : Nat :=
  (inD + padBefore + padAfter - (dilation * (kernel - 1) + 1)) / stride + 1

/-- One zero-filled sample of a channel-last input buffer: the value of
`X[n, y, x, c]` when `(y, x)` is inside `[0,H) × [0,W)`, and `0` otherwise.
This is the padding semantics of `extract_image_patches` with padding
value `0`. -/
def sampleNHWC (Xd : List Int) (H W C : Nat) (n : Nat) (y x : Int) (c : Nat) : Int :=
  if 0 ≤ y ∧ y < (H : Int) ∧ 0 ≤ x ∧ x < (W : Int) then
    Xd.getD (flat4 H W C n y.toNat x.toNat c) 0
  else 0

/-- One zero-filled sample of a channel-first input buffer: the value of
`X[n, c, y, x]` when `(y, x)` is in bounds, `0` otherwise. -/
def sampleNCHW (Xd : List Int) (C H W : Nat) (n c : Nat) (y x : Int) : Int :=
  if 0 ≤ y ∧ y < (H : Int) ∧ 0 ≤ x ∧ x < (W : Int) then
    Xd.getD (flat4 C H W n c y.toNat x.toNat) 0
  else 0

/-- Entry `(row, col)` of the patch matrix
`extract_image_patches(kernel_w, kernel_h, stride_w, stride_h, dilation_w,
dilation_h, 1, 1, pad_l, pad_r, pad_t, pad_b, 0).reshape(pre_contract_dims)`
over a row-major NHWC input.  `row` enumerates `(n, y, x)` row-major (the
caller decodes it); the column `r` enumerates `(i, j, c)` row-major, and the
sampled input coordinate is `output_index * stride - pad_before +
kernel_index * dilation`, zero-filled out of range. -/
def patchMatrixEntry (p : ConvParams) (Xd : List Int) (H W C : Nat)
    (n y x r : Nat) : Int :=
  sampleNHWC Xd H W C n
    ((y : Int) * (p.stride_h : Int) - (p.pad_t : Int)
      + ((r / (p.kernel_w * C) : Nat) : Int) * (p.dilation_h : Int))
    ((x : Int) * (p.stride_w : Int) - (p.pad_l : Int)
      + ((r / C % p.kernel_w : Nat) : Int) * (p.dilation_w : Int))
    (r % C)

/-- The NHWC path's `temp_filter`: the caller's filter buffer viewed as a
column-major `(kernel_h*kernel_w*C, M)` array and transposed into a fresh
column-major `(M, K)` array (`temp_filter = ConstEigenArrayMap(filter, K,
M).transpose()`).  Flat position `idx` of the new buffer holds row `idx % M`,
column `idx / M`, i.e. the caller's element at `(idx % M) * K + idx / M`. -/
def temp_filter (fd : List Int) (K M : Nat) : List Int :=
  (List.range (K * M)).map fun idx => fd.getD (idx % M * K + idx / M) 0

/-- The contraction stage: `patch.reshape(pre_contract_dims).contract(
filter.reshape(kernel_dims), contract_dims).reshape(Y_dims)`.  The result is
the flat row-major `(N, oH, oW, M)` buffer whose element `q` (decoded as
`(n, y, x, m)`) is the dot product of patch row `(n, y, x)` with column `m`
of the `(K, M)` row-major filter matrix `fmat`. -/
def contractData (p : ConvParams) (Xd fmat : List Int)
    (N H W C M oH oW : Nat) : List Int :=
  (List.range (N * oH * oW * M)).map fun q =>
    ∑ r : Fin (p.kernel_h * p.kernel_w * C),
      patchMatrixEntry p Xd H W C (q / (M * oW * oH)) (q / (M * oW) % oH)
          (q / M % oW) r.val
        * fmat.getD (r.val * M + q % M) 0

/-- The bias stage `Y_arr = Y_arr.colwise() + bias_arr`: the output buffer is
viewed column-major as an `(M, size/M)` array, so flat position `q` (row
`q % M`) gains `bias[q % M]`. -/
def biasAdd (yd bd : List Int) (M : Nat) : List Int :=
  (List.range yd.length).map fun q => yd.getD q 0 + bd.getD (q % M) 0

/-- The NCHW path's `filter.shuffle(kernel_shuffles)` with
`kernel_shuffles = {2, 3, 1, 0}`: the `(M, C, kH, kW)` filter is copied into
a fresh row-major `(kH, kW, C, M)` tensor, element `(i, j, c, m)` of the copy
being element `(m, c, i, j)` of the caller's buffer. -/
def shuffleKernelNCHW (fd : List Int) (M C kH kW : Nat) : List Int :=
  (List.range (kH * kW * C * M)).map fun q =>
    fd.getD (flat4 C kH kW (q % M) (q / M % C) (q / (M * C * kW)) (q / (M * C) % kW)) 0

/-- The NCHW path's `X.shuffle(input_shuffles)` with
`input_shuffles = {0, 2, 3, 1}`: the `(N, C, H, W)` input is copied into a
fresh row-major `(N, H, W, C)` tensor, element `(n, y, x, c)` of the copy
being element `(n, c, y, x)` of the caller's buffer. -/
def shuffleInputNCHW (xd : List Int) (N C H W : Nat) : List Int :=
  (List.range (N * H * W * C)).map fun q =>
    xd.getD (flat4 C H W (q / (C * W * H)) (q % C) (q / (C * W) % H) (q / C % W)) 0

/-- The NCHW path's final `Y_tensor.shuffle(output_shuffles)` with
`output_shuffles = {0, 3, 1, 2}`: the `(N, oH, oW, M)` intermediate is copied
into the caller's `(N, M, oH, oW)` output buffer, element `(n, m, y, x)` of
the copy being element `(n, y, x, m)` of the intermediate. -/
def shuffleOutputNCHW (yd : List Int) (N oH oW M : Nat) : List Int :=
  (List.range (N * M * oH * oW)).map fun q =>
    yd.getD (flat4 oH oW M (q / (oW * oH * M)) (q / oW % oH) (q % oW) (q / (oW * oH) % M)) 0

/-- The computational core of the NHWC entry point, after the shape checks:
build `temp_filter`, extract patches from `X`, contract, and add the bias;
the result is the flat `(N, oH, oW, M)` output buffer. -/
def nhwcData (p : ConvParams) (ws : Workspace) : List Int :=
  let N := ws.X.dims.getD 0 0
  let H := ws.X.dims.getD 1 0
  let W := ws.X.dims.getD 2 0
  let C := ws.X.dims.getD 3 0
  let M := ws.filter.dims.getD 0 0
  let oH := outputSizeDim H p.pad_t p.pad_b p.kernel_h p.dilation_h p.stride_h
  let oW := outputSizeDim W p.pad_l p.pad_r p.kernel_w p.dilation_w p.stride_w
  biasAdd
    (contractData p ws.X.data
      (temp_filter ws.filter.data (p.kernel_h * p.kernel_w * C) M)
      N H W C M oH oW)
    ws.bias.data M

/-- The computational core of the NCHW entry point, after the shape checks:
shuffle the filter to `(kH, kW, C, M)` and the input to `(N, H, W, C)`, run
the same patch/contract/bias pipeline, and shuffle the `(N, oH, oW, M)`
result into the caller's `(N, M, oH, oW)` layout. -/
def nchwData (p : ConvParams) (ws : Workspace) : List Int :=
  let N := ws.X.dims.getD 0 0
  let C := ws.X.dims.getD 1 0
  let H := ws.X.dims.getD 2 0
  let W := ws.X.dims.getD 3 0
  let M := ws.filter.dims.getD 0 0
  let oH := outputSizeDim H p.pad_t p.pad_b p.kernel_h p.dilation_h p.stride_h
  let oW := outputSizeDim W p.pad_l p.pad_r p.kernel_w p.dilation_w p.stride_w
  shuffleOutputNCHW
    (biasAdd
      (contractData p (shuffleInputNCHW ws.X.data N C H W)
        (shuffleKernelNCHW ws.filter.data M C p.kernel_h p.kernel_w)
        N H W C M oH oW)
      ws.bias.data M)
    N oH oW M

/-- The NHWC entry point `EigenConvOp<T>::RunOnDeviceWithOrderNHWC`.
The `CAFFE_ENFORCE` shape checks run first (`filter.ndim() == 4`,
`filter.dim32(1) == kernel_h_`, `filter.dim32(2) == kernel_w_`,
`filter.dim32(3) == C`, `bias.ndim() == 1`, `bias.dim32(0) == M`); a failure
raises `invalidShape` and leaves every buffer untouched.  The output-size
check models the spec's `SetOutputSize` contract: the caller's output buffer
must match the computed `(N, oH, oW, M)` shape. -/
def RunOnDeviceWithOrderNHWC (p : ConvParams) (ws : Workspace) : ConvResult :=
  if ws.filter.dims.length = 4
      ∧ ws.filter.dims.getD 1 0 = p.kernel_h
      ∧ ws.filter.dims.getD 2 0 = p.kernel_w
      ∧ ws.filter.dims.getD 3 0 = ws.X.dims.getD 3 0
      ∧ ws.bias.dims.length = 1
      ∧ ws.bias.dims.getD 0 0 = ws.filter.dims.getD 0 0 then
    if ws.Y.dims = [ws.X.dims.getD 0 0,
        outputSizeDim (ws.X.dims.getD 1 0) p.pad_t p.pad_b p.kernel_h p.dilation_h p.stride_h,
        outputSizeDim (ws.X.dims.getD 2 0) p.pad_l p.pad_r p.kernel_w p.dilation_w p.stride_w,
        ws.filter.dims.getD 0 0] then
      .ok { ws with Y := ⟨[ws.X.dims.getD 0 0,
        outputSizeDim (ws.X.dims.getD 1 0) p.pad_t p.pad_b p.kernel_h p.dilation_h p.stride_h,
        outputSizeDim (ws.X.dims.getD 2 0) p.pad_l p.pad_r p.kernel_w p.dilation_w p.stride_w,
        ws.filter.dims.getD 0 0], nhwcData p ws⟩ }
    else .err .inconsistentOutputSize ws
  else .err .invalidShape ws

/-- The NCHW entry point `EigenConvOp<T>::RunOnDeviceWithOrderNCHW`.
The `CAFFE_ENFORCE` shape checks run first (`filter.ndim() == 4`,
`filter.dim32(1) == C`, `filter.dim32(2) == kernel_h_`,
`filter.dim32(3) == kernel_w_`, `bias.ndim() == 1`, `bias.dim32(0) == M`);
a failure raises `invalidShape` and leaves every buffer untouched.  The
output-size check models the spec's `SetOutputSize` contract against the
`(N, M, oH, oW)` shape. -/
def RunOnDeviceWithOrderNCHW (p : ConvParams) (ws : Workspace) : ConvResult :=
  if ws.filter.dims.length = 4
      ∧ ws.filter.dims.getD 1 0 = ws.X.dims.getD 1 0
      ∧ ws.filter.dims.getD 2 0 = p.kernel_h
      ∧ ws.filter.dims.getD 3 0 = p.kernel_w
      ∧ ws.bias.dims.length = 1
      ∧ ws.bias.dims.getD 0 0 = ws.filter.dims.getD 0 0 then
    if ws.Y.dims = [ws.X.dims.getD 0 0,
        ws.filter.dims.getD 0 0,
        outputSizeDim (ws.X.dims.getD 2 0) p.pad_t p.pad_b p.kernel_h p.dilation_h p.stride_h,
        outputSizeDim (ws.X.dims.getD 3 0) p.pad_l p.pad_r p.kernel_w p.dilation_w p.stride_w] then
      .ok { ws with Y := ⟨[ws.X.dims.getD 0 0,
        ws.filter.dims.getD 0 0,
        outputSizeDim (ws.X.dims.getD 2 0) p.pad_t p.pad_b p.kernel_h p.dilation_h p.stride_h,
        outputSizeDim (ws.X.dims.getD 3 0) p.pad_l p.pad_r p.kernel_w p.dilation_w p.stride_w],
        nchwData p ws⟩ }
    else .err .inconsistentOutputSize ws
  else .err .invalidShape ws

example :
    RunOnDeviceWithOrderNHWC ⟨1, 1, 1, 1, 1, 1, 0, 0, 0, 0⟩
      ⟨⟨[1, 1, 1, 1], [2]⟩, ⟨[1, 1, 1, 1], [3]⟩, ⟨[1], [5]⟩, ⟨[1, 1, 1, 1], [0]⟩⟩
    = .ok ⟨⟨[1, 1, 1, 1], [2]⟩, ⟨[1, 1, 1, 1], [3]⟩, ⟨[1], [5]⟩, ⟨[1, 1, 1, 1], [11]⟩⟩ := by
  decide

/-! ### Destructuring a successful run -/

lemma runNHWC_ok_elim {p : ConvParams} {ws ws' : Workspace}
    (h : RunOnDeviceWithOrderNHWC p ws = .ok ws') :
    (ws.filter.dims.length = 4
      ∧ ws.filter.dims.getD 1 0 = p.kernel_h
      ∧ ws.filter.dims.getD 2 0 = p.kernel_w
      ∧ ws.filter.dims.getD 3 0 = ws.X.dims.getD 3 0
      ∧ ws.bias.dims.length = 1
      ∧ ws.bias.dims.getD 0 0 = ws.filter.dims.getD 0 0)
    ∧ ws' = { ws with Y := ⟨[ws.X.dims.getD 0 0,
        outputSizeDim (ws.X.dims.getD 1 0) p.pad_t p.pad_b p.kernel_h p.dilation_h p.stride_h,
        outputSizeDim (ws.X.dims.getD 2 0) p.pad_l p.pad_r p.kernel_w p.dilation_w p.stride_w,
        ws.filter.dims.getD 0 0], nhwcData p ws⟩ } := by
  unfold RunOnDeviceWithOrderNHWC at h
  split at h
  case isTrue hchecks =>
    split at h
    case isTrue hsize =>
      cases h
      exact ⟨hchecks, rfl⟩
    case isFalse _ => exact absurd h (by simp)
  case isFalse _ => exact absurd h (by simp)

lemma runNCHW_ok_elim {p : ConvParams} {ws ws' : Workspace}
    (h : RunOnDeviceWithOrderNCHW p ws = .ok ws') :
    (ws.filter.dims.length = 4
      ∧ ws.filter.dims.getD 1 0 = ws.X.dims.getD 1 0
      ∧ ws.filter.dims.getD 2 0 = p.kernel_h
      ∧ ws.filter.dims.getD 3 0 = p.kernel_w
      ∧ ws.bias.dims.length = 1
      ∧ ws.bias.dims.getD 0 0 = ws.filter.dims.getD 0 0)
    ∧ ws' = { ws with Y := ⟨[ws.X.dims.getD 0 0,
        ws.filter.dims.getD 0 0,
        outputSizeDim (ws.X.dims.getD 2 0) p.pad_t p.pad_b p.kernel_h p.dilation_h p.stride_h,
        outputSizeDim (ws.X.dims.getD 3 0) p.pad_l p.pad_r p.kernel_w p.dilation_w p.stride_w],
        nchwData p ws⟩ } := by
  unfold RunOnDeviceWithOrderNCHW at h
  split at h
  case isTrue hchecks =>
    split at h
    case isTrue hsize =>
      cases h
      exact ⟨hchecks, rfl⟩
    case isFalse _ => exact absurd h (by simp)
  case isFalse _ => exact absurd h (by simp)

/-! ### Index arithmetic helpers -/

lemma getD_range_map (L : Nat) (f : Nat → Int) (q : Nat) (hq : q < L) :
    ((List.range L).map f).getD q 0 = f q := by
  rw [List.getD_eq_getElem?_getD, List.getElem?_map, List.getElem?_range hq]
  rfl

lemma encode_mod {M : Nat} (a m : Nat) (hm : m < M) : (a * M + m) % M = m := by
  rw [Nat.mul_comm a M, Nat.mul_add_mod]
  exact Nat.mod_eq_of_lt hm

lemma encode_div {M : Nat} (a m : Nat) (hm : m < M) : (a * M + m) / M = a := by
  rw [Nat.mul_comm a M, Nat.mul_add_div (Nat.lt_of_le_of_lt (Nat.zero_le m) hm),
    Nat.div_eq_of_lt hm]
  exact Nat.add_zero a

lemma mul_add_lt {I J i j : Nat} (hi : i < I) (hj : j < J) : i * J + j < I * J :=
  lt_of_lt_of_le (by omega : i * J + j < i * J + J)
    (by rw [← Nat.succ_mul]; exact Nat.mul_le_mul_right J hi)

lemma flat4_lt {A B C D a b c d : Nat} (ha : a < A) (hb : b < B) (hc : c < C)
    (hd : d < D) : flat4 B C D a b c d < A * B * C * D := by
  show ((a * B + b) * C + c) * D + d < A * B * C * D
  exact mul_add_lt (mul_add_lt (mul_add_lt ha hb) hc) hd

lemma sum_fin_mul (A B : Nat) (F : Nat → Int) :
    ∑ r : Fin (A * B), F r.val = ∑ a : Fin A, ∑ b : Fin B, F (a.val * B + b.val) := by
  have h := Fintype.sum_equiv finProdFinEquiv
    (fun x : Fin A × Fin B => F (x.1.val * B + x.2.val))
    (fun r : Fin (A * B) => F r.val)
    (by
      intro x
      show F (x.1.val * B + x.2.val) = F ((finProdFinEquiv x).val)
      congr 1
      show x.1.val * B + x.2.val = x.2.val + B * x.1.val
      ring)
  rw [← h, Fintype.sum_prod_type]

lemma sum_fin_triple (A B C : Nat) (F : Nat → Int) :
    ∑ r : Fin (A * B * C), F r.val
      = ∑ a : Fin A, ∑ b : Fin B, ∑ c : Fin C,
          F ((a.val * B + b.val) * C + c.val) :=
  calc ∑ r : Fin (A * B * C), F r.val
      = ∑ ab : Fin (A * B), ∑ c : Fin C, F (ab.val * C + c.val) :=
        sum_fin_mul (A * B) C F
    _ = ∑ a : Fin A, ∑ b : Fin B, ∑ c : Fin C, F ((a.val * B + b.val) * C + c.val) :=
        sum_fin_mul A B (fun ab => ∑ c : Fin C, F (ab * C + c.val))

/-! ### Entry lemmas for the pipeline stages -/

/-- The NHWC contraction matrix entry `(r, m)` (row-major `(K, M)` view of
the `temp_filter` buffer) is the caller's filter element at flat position
`m * K + r`: the transpose, not the identity, of the caller's flat order. -/
lemma temp_filter_entry {K M : Nat} (fd : List Int) {r m : Nat}
    (hr : r < K) (hm : m < M) :
    (temp_filter fd K M).getD (r * M + m) 0 = fd.getD (m * K + r) 0 := by
  unfold temp_filter
  rw [getD_range_map _ _ _ (mul_add_lt hr hm)]
  rw [encode_mod r m hm, encode_div r m hm]

lemma biasAdd_length (yd bd : List Int) (M : Nat) :
    (biasAdd yd bd M).length = yd.length := by
  simp [biasAdd]

lemma biasAdd_entry {yd : List Int} (bd : List Int) {M q : Nat}
    (hq : q < yd.length) :
    (biasAdd yd bd M).getD q 0 = yd.getD q 0 + bd.getD (q % M) 0 := by
  unfold biasAdd
  rw [getD_range_map _ _ _ hq]

lemma contractData_length (p : ConvParams) (Xd fmat : List Int)
    (N H W C M oH oW : Nat) :
    (contractData p Xd fmat N H W C M oH oW).length = N * oH * oW * M := by
  simp [contractData]

lemma contract_entry (p : ConvParams) (Xd fmat : List Int)
    {N H W C M oH oW : Nat} {n y x m : Nat}
    (hn : n < N) (hy : y < oH) (hx : x < oW) (hm : m < M) :
    (contractData p Xd fmat N H W C M oH oW).getD (flat4 oH oW M n y x m) 0
      = ∑ r : Fin (p.kernel_h * p.kernel_w * C),
          patchMatrixEntry p Xd H W C n y x r.val * fmat.getD (r.val * M + m) 0 := by
  unfold contractData
  rw [getD_range_map _ _ _ (flat4_lt hn hy hx hm)]
  have h1 : flat4 oH oW M n y x m % M = m := by
    show (((n * oH + y) * oW + x) * M + m) % M = m
    exact encode_mod _ _ hm
  have h2 : flat4 oH oW M n y x m / M = (n * oH + y) * oW + x := by
    show (((n * oH + y) * oW + x) * M + m) / M = _
    exact encode_div _ _ hm
  have h3 : flat4 oH oW M n y x m / (M * oW) = n * oH + y := by
    rw [← Nat.div_div_eq_div_mul, h2]
    exact encode_div _ _ hx
  have h4 : flat4 oH oW M n y x m / (M * oW * oH) = n := by
    rw [← Nat.div_div_eq_div_mul, h3]
    exact encode_div _ _ hy
  rw [h4, h3, h2, h1, encode_mod _ _ hy, encode_mod _ _ hx]

/-- Decoding the patch-matrix column `r = (i * kW + j) * C + c` recovers the
sample at kernel position `(i, j)` and channel `c`. -/
lemma patchMatrixEntry_encode (p : ConvParams) (Xd : List Int) {C : Nat}
    (H W n y x : Nat) {i j c : Nat}
    (hj : j < p.kernel_w) (hc : c < C) :
    patchMatrixEntry p Xd H W C n y x ((i * p.kernel_w + j) * C + c)
      = sampleNHWC Xd H W C n
          ((y : Int) * (p.stride_h : Int) - (p.pad_t : Int)
            + (i : Int) * (p.dilation_h : Int))
          ((x : Int) * (p.stride_w : Int) - (p.pad_l : Int)
            + (j : Int) * (p.dilation_w : Int)) c := by
  unfold patchMatrixEntry
  have h1 : ((i * p.kernel_w + j) * C + c) % C = c := encode_mod _ _ hc
  have h2 : ((i * p.kernel_w + j) * C + c) / C = i * p.kernel_w + j :=
    encode_div _ _ hc
  have h3 : ((i * p.kernel_w + j) * C + c) / (p.kernel_w * C) = i := by
    rw [Nat.mul_comm p.kernel_w C, ← Nat.div_div_eq_div_mul, h2]
    exact encode_div _ _ hj
  rw [h1, h2, h3, encode_mod _ _ hj]

/-- Value preservation of the NCHW input shuffle: element `(n, y, x, c)` of
the shuffled `(N, H, W, C)` buffer is element `(n, c, y, x)` of the caller's
`(N, C, H, W)` buffer. -/
lemma shuffleInput_entry (xd : List Int) {N C H W : Nat} {n y x c : Nat}
    (hn : n < N) (hy : y < H) (hx : x < W) (hc : c < C) :
    (shuffleInputNCHW xd N C H W).getD (flat4 H W C n y x c) 0
      = xd.getD (flat4 C H W n c y x) 0 := by
  unfold shuffleInputNCHW
  rw [getD_range_map _ _ _ (flat4_lt hn hy hx hc)]
  have h1 : flat4 H W C n y x c % C = c := by
    show (((n * H + y) * W + x) * C + c) % C = c
    exact encode_mod _ _ hc
  have h2 : flat4 H W C n y x c / C = (n * H + y) * W + x := by
    show (((n * H + y) * W + x) * C + c) / C = _
    exact encode_div _ _ hc
  have h3 : flat4 H W C n y x c / (C * W) = n * H + y := by
    rw [← Nat.div_div_eq_div_mul, h2]
    exact encode_div _ _ hx
  have h4 : flat4 H W C n y x c / (C * W * H) = n := by
    rw [← Nat.div_div_eq_div_mul, h3]
    exact encode_div _ _ hy
  rw [h4, h3, h2, h1, encode_mod _ _ hy, encode_mod _ _ hx]

lemma shuffleInput_length (xd : List Int) (N C H W : Nat) :
    (shuffleInputNCHW xd N C H W).length = N * H * W * C := by
  simp [shuffleInputNCHW]

/-- A zero-filled sample of the shuffled input equals the zero-filled sample
of the original NCHW buffer. -/
lemma sampleNHWC_shuffleInput (xd : List Int) {N C H W : Nat} {n c : Nat}
    (hn : n < N) (hc : c < C) (y x : Int) :
    sampleNHWC (shuffleInputNCHW xd N C H W) H W C n y x c
      = sampleNCHW xd C H W n c y x := by
  unfold sampleNHWC sampleNCHW
  split
  case isTrue h =>
    have hy : y.toNat < H := by omega
    have hx : x.toNat < W := by omega
    exact shuffleInput_entry xd hn hy hx hc
  case isFalse h => rfl

/-- Value preservation of the NCHW kernel shuffle, read at the contraction
position `(r, m)` with `r = (i * kW + j) * C + c`: the entry is the caller's
filter element `(m, c, i, j)`. -/
lemma shuffleKernel_entry (fd : List Int) {M C kH kW : Nat} {i j c m : Nat}
    (hi : i < kH) (hj : j < kW) (hc : c < C) (hm : m < M) :
    (shuffleKernelNCHW fd M C kH kW).getD (((i * kW + j) * C + c) * M + m) 0
      = fd.getD (flat4 C kH kW m c i j) 0 := by
  unfold shuffleKernelNCHW
  have hr : (i * kW + j) * C + c < kH * kW * C :=
    mul_add_lt (mul_add_lt hi hj) hc
  rw [getD_range_map _ _ _ (mul_add_lt hr hm)]
  have h1 : (((i * kW + j) * C + c) * M + m) % M = m := encode_mod _ _ hm
  have h2 : (((i * kW + j) * C + c) * M + m) / M = (i * kW + j) * C + c :=
    encode_div _ _ hm
  have h3 : (((i * kW + j) * C + c) * M + m) / (M * C) = i * kW + j := by
    rw [← Nat.div_div_eq_div_mul, h2]
    exact encode_div _ _ hc
  have h4 : (((i * kW + j) * C + c) * M + m) / (M * C * kW) = i := by
    rw [← Nat.div_div_eq_div_mul, h3]
    exact encode_div _ _ hj
  rw [h1, h2, h3, h4, encode_mod _ _ hc, encode_mod _ _ hj]

lemma shuffleKernel_length (fd : List Int) (M C kH kW : Nat) :
    (shuffleKernelNCHW fd M C kH kW).length = kH * kW * C * M := by
  simp [shuffleKernelNCHW]

/-- Value preservation of the NCHW output shuffle: element `(n, m, y, x)` of
the caller-layout copy is element `(n, y, x, m)` of the `(N, oH, oW, M)`
intermediate. -/
lemma shuffleOutput_entry (yd : List Int) {N oH oW M : Nat} {n m y x : Nat}
    (hn : n < N) (hm : m < M) (hy : y < oH) (hx : x < oW) :
    (shuffleOutputNCHW yd N oH oW M).getD (flat4 M oH oW n m y x) 0
      = yd.getD (flat4 oH oW M n y x m) 0 := by
  unfold shuffleOutputNCHW
  rw [getD_range_map _ _ _ (flat4_lt hn hm hy hx)]
  have h1 : flat4 M oH oW n m y x % oW = x := by
    show (((n * M + m) * oH + y) * oW + x) % oW = x
    exact encode_mod _ _ hx
  have h2 : flat4 M oH oW n m y x / oW = (n * M + m) * oH + y := by
    show (((n * M + m) * oH + y) * oW + x) / oW = _
    exact encode_div _ _ hx
  have h3 : flat4 M oH oW n m y x / (oW * oH) = n * M + m := by
    rw [← Nat.div_div_eq_div_mul, h2]
    exact encode_div _ _ hy
  have h4 : flat4 M oH oW n m y x / (oW * oH * M) = n := by
    rw [← Nat.div_div_eq_div_mul, h3]
    exact encode_div _ _ hm
  rw [h4, h3, h2, h1, encode_mod _ _ hy, encode_mod _ _ hm]

lemma shuffleOutput_length (yd : List Int) (N oH oW M : Nat) :
    (shuffleOutputNCHW yd N oH oW M).length = N * M * oH * oW := by
  simp [shuffleOutputNCHW]

-- Sanity anchor (spec §8 padding test): 3×3 input 1..9, 3×3 all-ones kernel,
-- stride 1, dilation 1, padding 1 on all sides, zero bias: corners are the
-- sums of the 4 in-bounds cells, the centre is the sum of all 9.
example :
    RunOnDeviceWithOrderNHWC ⟨3, 3, 1, 1, 1, 1, 1, 1, 1, 1⟩
      ⟨⟨[1, 3, 3, 1], [1, 2, 3, 4, 5, 6, 7, 8, 9]⟩,
       ⟨[1, 3, 3, 1], [1, 1, 1, 1, 1, 1, 1, 1, 1]⟩,
       ⟨[1], [0]⟩, ⟨[1, 3, 3, 1], []⟩⟩
    = .ok ⟨⟨[1, 3, 3, 1], [1, 2, 3, 4, 5, 6, 7, 8, 9]⟩,
       ⟨[1, 3, 3, 1], [1, 1, 1, 1, 1, 1, 1, 1, 1]⟩,
       ⟨[1], [0]⟩,
       ⟨[1, 3, 3, 1], [12, 21, 16, 27, 45, 33, 24, 39, 28]⟩⟩ := by
  decide

-- Sanity anchor (layout equivalence): 1×1 kernel, C = 2, M = 2, W = 2; the
-- NCHW and NHWC paths on the same logical data give the same logical output.
example :
    RunOnDeviceWithOrderNCHW ⟨1, 1, 1, 1, 1, 1, 0, 0, 0, 0⟩
      ⟨⟨[1, 2, 1, 2], [1, 2, 3, 4]⟩, ⟨[2, 2, 1, 1], [10, 20, 30, 40]⟩,
       ⟨[2], [100, 200]⟩, ⟨[1, 2, 1, 2], []⟩⟩
    = .ok ⟨⟨[1, 2, 1, 2], [1, 2, 3, 4]⟩, ⟨[2, 2, 1, 1], [10, 20, 30, 40]⟩,
       ⟨[2], [100, 200]⟩, ⟨[1, 2, 1, 2], [170, 200, 350, 420]⟩⟩ := by
  decide

example :
    RunOnDeviceWithOrderNHWC ⟨1, 1, 1, 1, 1, 1, 0, 0, 0, 0⟩
      ⟨⟨[1, 1, 2, 2], [1, 3, 2, 4]⟩, ⟨[2, 1, 1, 2], [10, 20, 30, 40]⟩,
       ⟨[2], [100, 200]⟩, ⟨[1, 1, 2, 2], []⟩⟩
    = .ok ⟨⟨[1, 1, 2, 2], [1, 3, 2, 4]⟩, ⟨[2, 1, 1, 2], [10, 20, 30, 40]⟩,
       ⟨[2], [100, 200]⟩, ⟨[1, 1, 2, 2], [170, 350, 200, 420]⟩⟩ := by
  decide

/-! ### Element-level formulas for the two entry points -/

/-- Closed form of one output element of a successful NHWC run: bias plus the
receptive-field triple sum, with zero-filled out-of-range samples. -/
lemma nhwc_element (p : ConvParams) (ws ws' : Workspace) (N H W C M : Nat)
    (hdX : ws.X.dims = [N, H, W, C])
    (hM : ws.filter.dims.getD 0 0 = M)
    (h : RunOnDeviceWithOrderNHWC p ws = .ok ws')
    (n y x m : Nat) (hn : n < N)
    (hy : y < outputSizeDim H p.pad_t p.pad_b p.kernel_h p.dilation_h p.stride_h)
    (hx : x < outputSizeDim W p.pad_l p.pad_r p.kernel_w p.dilation_w p.stride_w)
    (hm : m < M) :
    ws'.Y.data.getD
        (flat4 (outputSizeDim H p.pad_t p.pad_b p.kernel_h p.dilation_h p.stride_h)
          (outputSizeDim W p.pad_l p.pad_r p.kernel_w p.dilation_w p.stride_w)
          M n y x m) 0
      = ws.bias.data.getD m 0
        + ∑ i : Fin p.kernel_h, ∑ j : Fin p.kernel_w, ∑ c : Fin C,
            sampleNHWC ws.X.data H W C n
              ((y : Int) * (p.stride_h : Int) - (p.pad_t : Int)
                + (i.val : Int) * (p.dilation_h : Int))
              ((x : Int) * (p.stride_w : Int) - (p.pad_l : Int)
                + (j.val : Int) * (p.dilation_w : Int)) c.val
            * ws.filter.data.getD (flat4 p.kernel_h p.kernel_w C m i.val j.val c.val) 0 := by
  obtain ⟨hchecks, hws'⟩ := runNHWC_ok_elim h
  subst hws'
  show (nhwcData p ws).getD _ 0 = _
  simp only [nhwcData]
  have e1 : ws.X.dims.getD 1 0 = H := by rw [hdX]; rfl
  have e2 : ws.X.dims.getD 2 0 = W := by rw [hdX]; rfl
  have e3 : ws.X.dims.getD 3 0 = C := by rw [hdX]; rfl
  have e0 : ws.X.dims.getD 0 0 = N := by rw [hdX]; rfl
  rw [e0, e1, e2, e3, hM]
  set oH := outputSizeDim H p.pad_t p.pad_b p.kernel_h p.dilation_h p.stride_h with hoH
  set oW := outputSizeDim W p.pad_l p.pad_r p.kernel_w p.dilation_w p.stride_w with hoW
  have hlen : flat4 oH oW M n y x m
      < (contractData p ws.X.data
          (temp_filter ws.filter.data (p.kernel_h * p.kernel_w * C) M)
          N H W C M oH oW).length := by
    rw [contractData_length]
    exact flat4_lt hn hy hx hm
  rw [biasAdd_entry ws.bias.data hlen]
  have hqm : flat4 oH oW M n y x m % M = m := by
    show (((n * oH + y) * oW + x) * M + m) % M = m
    exact encode_mod _ _ hm
  rw [hqm, contract_entry p _ _ hn hy hx hm]
  rw [sum_fin_triple p.kernel_h p.kernel_w C
    (fun r => patchMatrixEntry p ws.X.data H W C n y x r
      * (temp_filter ws.filter.data (p.kernel_h * p.kernel_w * C) M).getD (r * M + m) 0)]
  rw [Int.add_comm]
  congr 1
  apply Finset.sum_congr rfl
  intro i _
  apply Finset.sum_congr rfl
  intro j _
  apply Finset.sum_congr rfl
  intro c _
  rw [patchMatrixEntry_encode p ws.X.data H W n y x j.isLt c.isLt]
  have hr : (i.val * p.kernel_w + j.val) * C + c.val < p.kernel_h * p.kernel_w * C :=
    mul_add_lt (mul_add_lt i.isLt j.isLt) c.isLt
  rw [temp_filter_entry ws.filter.data hr hm]
  have hidx : m * (p.kernel_h * p.kernel_w * C) + ((i.val * p.kernel_w + j.val) * C + c.val)
      = flat4 p.kernel_h p.kernel_w C m i.val j.val c.val := by
    show _ = ((m * p.kernel_h + i.val) * p.kernel_w + j.val) * C + c.val
    ring
  rw [hidx]

/-- Closed form of one output element of a successful NCHW run: bias plus the
receptive-field triple sum over the caller's channel-first buffers. -/
lemma nchw_element (p : ConvParams) (ws ws' : Workspace) (N C H W M : Nat)
    (hdX : ws.X.dims = [N, C, H, W])
    (hM : ws.filter.dims.getD 0 0 = M)
    (h : RunOnDeviceWithOrderNCHW p ws = .ok ws')
    (n y x m : Nat) (hn : n < N)
    (hy : y < outputSizeDim H p.pad_t p.pad_b p.kernel_h p.dilation_h p.stride_h)
    (hx : x < outputSizeDim W p.pad_l p.pad_r p.kernel_w p.dilation_w p.stride_w)
    (hm : m < M) :
    ws'.Y.data.getD
        (flat4 M (outputSizeDim H p.pad_t p.pad_b p.kernel_h p.dilation_h p.stride_h)
          (outputSizeDim W p.pad_l p.pad_r p.kernel_w p.dilation_w p.stride_w)
          n m y x) 0
      = ws.bias.data.getD m 0
        + ∑ i : Fin p.kernel_h, ∑ j : Fin p.kernel_w, ∑ c : Fin C,
            sampleNCHW ws.X.data C H W n c.val
              ((y : Int) * (p.stride_h : Int) - (p.pad_t : Int)
                + (i.val : Int) * (p.dilation_h : Int))
              ((x : Int) * (p.stride_w : Int) - (p.pad_l : Int)
                + (j.val : Int) * (p.dilation_w : Int))
            * ws.filter.data.getD (flat4 C p.kernel_h p.kernel_w m c.val i.val j.val) 0 := by
  obtain ⟨hchecks, hws'⟩ := runNCHW_ok_elim h
  subst hws'
  show (nchwData p ws).getD _ 0 = _
  simp only [nchwData]
  have e1 : ws.X.dims.getD 1 0 = C := by rw [hdX]; rfl
  have e2 : ws.X.dims.getD 2 0 = H := by rw [hdX]; rfl
  have e3 : ws.X.dims.getD 3 0 = W := by rw [hdX]; rfl
  have e0 : ws.X.dims.getD 0 0 = N := by rw [hdX]; rfl
  rw [e0, e1, e2, e3, hM]
  set oH := outputSizeDim H p.pad_t p.pad_b p.kernel_h p.dilation_h p.stride_h with hoH
  set oW := outputSizeDim W p.pad_l p.pad_r p.kernel_w p.dilation_w p.stride_w with hoW
  rw [shuffleOutput_entry _ hn hm hy hx]
  have hlen : flat4 oH oW M n y x m
      < (contractData p (shuffleInputNCHW ws.X.data N C H W)
          (shuffleKernelNCHW ws.filter.data M C p.kernel_h p.kernel_w)
          N H W C M oH oW).length := by
    rw [contractData_length]
    exact flat4_lt hn hy hx hm
  rw [biasAdd_entry ws.bias.data hlen]
  have hqm : flat4 oH oW M n y x m % M = m := by
    show (((n * oH + y) * oW + x) * M + m) % M = m
    exact encode_mod _ _ hm
  rw [hqm, contract_entry p _ _ hn hy hx hm]
  rw [sum_fin_triple p.kernel_h p.kernel_w C
    (fun r => patchMatrixEntry p (shuffleInputNCHW ws.X.data N C H W) H W C n y x r
      * (shuffleKernelNCHW ws.filter.data M C p.kernel_h p.kernel_w).getD (r * M + m) 0)]
  rw [Int.add_comm]
  congr 1
  apply Finset.sum_congr rfl
  intro i _
  apply Finset.sum_congr rfl
  intro j _
  apply Finset.sum_congr rfl
  intro c _
  rw [patchMatrixEntry_encode p (shuffleInputNCHW ws.X.data N C H W) H W n y x j.isLt c.isLt]
  rw [sampleNHWC_shuffleInput ws.X.data hn c.isLt]
  rw [shuffleKernel_entry ws.filter.data i.isLt j.isLt c.isLt hm]

/-! ### Claim theorems -/

/-- C1: For every valid channel-last (NHWC) invocation, each output element
`output[n, y, x, m]` equals `bias[m]` plus the sum over kernel row `i`,
kernel column `j`, and input channel `c` of
`X[n, y*stride_h - pad_top + i*dilation_h, x*stride_w - pad_left + j*dilation_w, c]
 * filter[m, i, j, c]`, where any sampled coordinate outside `[0, H)` or
`[0, W)` contributes the value zero (zero-fill, not clamp or reflect; the
zero-fill is the `else 0` branch of `sampleNHWC`). -/
theorem C1_nhwc_output_formula (p : ConvParams) (ws ws' : Workspace)
    (N H W C M : Nat)
    (hdX : ws.X.dims = [N, H, W, C])
    (hM : ws.filter.dims.getD 0 0 = M)
    (h : RunOnDeviceWithOrderNHWC p ws = .ok ws')
    (n y x m : Nat) (hn : n < N)
    (hy : y < outputSizeDim H p.pad_t p.pad_b p.kernel_h p.dilation_h p.stride_h)
    (hx : x < outputSizeDim W p.pad_l p.pad_r p.kernel_w p.dilation_w p.stride_w)
    (hm : m < M) :
    ws'.Y.data.getD
        (flat4 (outputSizeDim H p.pad_t p.pad_b p.kernel_h p.dilation_h p.stride_h)
          (outputSizeDim W p.pad_l p.pad_r p.kernel_w p.dilation_w p.stride_w)
          M n y x m) 0
      = ws.bias.data.getD m 0
        + ∑ i : Fin p.kernel_h, ∑ j : Fin p.kernel_w, ∑ c : Fin C,
            sampleNHWC ws.X.data H W C n
              ((y : Int) * (p.stride_h : Int) - (p.pad_t : Int)
                + (i.val : Int) * (p.dilation_h : Int))
              ((x : Int) * (p.stride_w : Int) - (p.pad_l : Int)
                + (j.val : Int) * (p.dilation_w : Int)) c.val
            * ws.filter.data.getD (flat4 p.kernel_h p.kernel_w C m i.val j.val c.val) 0 :=
  nhwc_element p ws ws' N H W C M hdX hM h n y x m hn hy hx hm

/-- C4: For every invocation in which the filter's rank is not 4, the bias's
rank is not 1, the filter's channel dimension differs from the input's
channel count `C` (dimension 3 of the filter in the NHWC path, dimension 1 in
the NCHW path), or the bias's length differs from the filter's output-channel
count `M`, the call fails with `invalidShape` before any computation, and the
result carries the workspace unchanged: the caller's output buffer is neither
written nor resized. -/
theorem C4_invalid_shape (p : ConvParams) (ws : Workspace) :
    ((ws.filter.dims.length ≠ 4 ∨ ws.bias.dims.length ≠ 1
        ∨ ws.filter.dims.getD 3 0 ≠ ws.X.dims.getD 3 0
        ∨ ws.bias.dims.getD 0 0 ≠ ws.filter.dims.getD 0 0) →
      RunOnDeviceWithOrderNHWC p ws = .err .invalidShape ws)
    ∧ ((ws.filter.dims.length ≠ 4 ∨ ws.bias.dims.length ≠ 1
        ∨ ws.filter.dims.getD 1 0 ≠ ws.X.dims.getD 1 0
        ∨ ws.bias.dims.getD 0 0 ≠ ws.filter.dims.getD 0 0) →
      RunOnDeviceWithOrderNCHW p ws = .err .invalidShape ws) := by
  constructor
  · intro hbad
    unfold RunOnDeviceWithOrderNHWC
    rw [if_neg (by tauto)]
  · intro hbad
    unfold RunOnDeviceWithOrderNCHW
    rw [if_neg (by tauto)]

/-- C9: In both entry points, an invocation also fails before any computation
when the filter's spatial dimensions differ from the configured kernel size:
in the NCHW path when filter dimension 2 differs from `kernel_h` or
dimension 3 differs from `kernel_w`, and in the NHWC path when filter
dimension 1 differs from `kernel_h` or dimension 2 differs from `kernel_w`. -/
theorem C9_kernel_size_checks (p : ConvParams) (ws : Workspace) :
    ((ws.filter.dims.getD 1 0 ≠ p.kernel_h ∨ ws.filter.dims.getD 2 0 ≠ p.kernel_w) →
      RunOnDeviceWithOrderNHWC p ws = .err .invalidShape ws)
    ∧ ((ws.filter.dims.getD 2 0 ≠ p.kernel_h ∨ ws.filter.dims.getD 3 0 ≠ p.kernel_w) →
      RunOnDeviceWithOrderNCHW p ws = .err .invalidShape ws) := by
  constructor
  · intro hbad
    unfold RunOnDeviceWithOrderNHWC
    rw [if_neg (by tauto)]
  · intro hbad
    unfold RunOnDeviceWithOrderNCHW
    rw [if_neg (by tauto)]

/-- C10: For every invocation of either entry point, whether it succeeds or
fails, the input tensor, the filter tensor, and the bias vector are left
unchanged in the resulting workspace (the const-cast tensor views of the
source are only read, never written). -/
theorem C10_inputs_unchanged (p : ConvParams) (ws : Workspace) :
    ((RunOnDeviceWithOrderNHWC p ws).workspace.X = ws.X
      ∧ (RunOnDeviceWithOrderNHWC p ws).workspace.filter = ws.filter
      ∧ (RunOnDeviceWithOrderNHWC p ws).workspace.bias = ws.bias)
    ∧ ((RunOnDeviceWithOrderNCHW p ws).workspace.X = ws.X
      ∧ (RunOnDeviceWithOrderNCHW p ws).workspace.filter = ws.filter
      ∧ (RunOnDeviceWithOrderNCHW p ws).workspace.bias = ws.bias) := by
  refine ⟨?_, ?_⟩
  · unfold RunOnDeviceWithOrderNHWC
    split
    · split <;> simp [ConvResult.workspace]
    · simp [ConvResult.workspace]
  · unfold RunOnDeviceWithOrderNCHW
    split
    · split <;> simp [ConvResult.workspace]
    · simp [ConvResult.workspace]

/-- C2: the channel-first (NCHW) and channel-last (NHWC) entry points, given
numerically equivalent tensors (same logical values, physically laid out per
each entry point's declared order), produce numerically equivalent outputs
that differ only in physical layout: for every `n, m, y, x`,
`output_nchw[n, m, y, x] = output_nhwc[n, y, x, m]`. -/
theorem C2_layout_equivalence (p : ConvParams) (ws1 o1 ws2 o2 : Workspace)
    (N C H W M : Nat)
    (hdX1 : ws1.X.dims = [N, C, H, W])
    (hdX2 : ws2.X.dims = [N, H, W, C])
    (hM1 : ws1.filter.dims.getD 0 0 = M)
    (hM2 : ws2.filter.dims.getD 0 0 = M)
    (hX : ∀ n < N, ∀ c < C, ∀ y < H, ∀ x < W,
      ws1.X.data.getD (flat4 C H W n c y x) 0
        = ws2.X.data.getD (flat4 H W C n y x c) 0)
    (hF : ∀ m < M, ∀ c < C, ∀ i < p.kernel_h, ∀ j < p.kernel_w,
      ws1.filter.data.getD (flat4 C p.kernel_h p.kernel_w m c i j) 0
        = ws2.filter.data.getD (flat4 p.kernel_h p.kernel_w C m i j c) 0)
    (hB : ws1.bias.data = ws2.bias.data)
    (h1 : RunOnDeviceWithOrderNCHW p ws1 = .ok o1)
    (h2 : RunOnDeviceWithOrderNHWC p ws2 = .ok o2)
    (n y x m : Nat) (hn : n < N)
    (hy : y < outputSizeDim H p.pad_t p.pad_b p.kernel_h p.dilation_h p.stride_h)
    (hx : x < outputSizeDim W p.pad_l p.pad_r p.kernel_w p.dilation_w p.stride_w)
    (hm : m < M) :
    o1.Y.data.getD
        (flat4 M (outputSizeDim H p.pad_t p.pad_b p.kernel_h p.dilation_h p.stride_h)
          (outputSizeDim W p.pad_l p.pad_r p.kernel_w p.dilation_w p.stride_w)
          n m y x) 0
      = o2.Y.data.getD
          (flat4 (outputSizeDim H p.pad_t p.pad_b p.kernel_h p.dilation_h p.stride_h)
            (outputSizeDim W p.pad_l p.pad_r p.kernel_w p.dilation_w p.stride_w)
            M n y x m) 0 := by
  rw [nchw_element p ws1 o1 N C H W M hdX1 hM1 h1 n y x m hn hy hx hm,
    nhwc_element p ws2 o2 N H W C M hdX2 hM2 h2 n y x m hn hy hx hm, hB]
  congr 1
  apply Finset.sum_congr rfl
  intro i _
  apply Finset.sum_congr rfl
  intro j _
  apply Finset.sum_congr rfl
  intro c _
  congr 1
  · unfold sampleNCHW sampleNHWC
    split
    next hin =>
      exact hX n hn c.val c.isLt _ (by omega) _ (by omega)
    next hout => rfl
  · exact hF m hm c.val c.isLt i.val i.isLt j.val j.isLt

/-- C3: in both entry points, after the contraction stage, `bias[m]` is added
exactly once to every output element whose output-channel index is `m`, and
to no other element: each output element equals the corresponding element of
the contraction result plus `bias[m]`, for every batch index and spatial
position, in both physical layouts. -/
theorem C3_bias_added_once :
    (∀ (p : ConvParams) (ws ws' : Workspace) (N H W C M n y x m : Nat),
      ws.X.dims = [N, H, W, C] → ws.filter.dims.getD 0 0 = M →
      RunOnDeviceWithOrderNHWC p ws = .ok ws' →
      n < N →
      y < outputSizeDim H p.pad_t p.pad_b p.kernel_h p.dilation_h p.stride_h →
      x < outputSizeDim W p.pad_l p.pad_r p.kernel_w p.dilation_w p.stride_w →
      m < M →
      ws'.Y.data.getD
          (flat4 (outputSizeDim H p.pad_t p.pad_b p.kernel_h p.dilation_h p.stride_h)
            (outputSizeDim W p.pad_l p.pad_r p.kernel_w p.dilation_w p.stride_w)
            M n y x m) 0
        = (contractData p ws.X.data
            (temp_filter ws.filter.data (p.kernel_h * p.kernel_w * C) M)
            N H W C M
            (outputSizeDim H p.pad_t p.pad_b p.kernel_h p.dilation_h p.stride_h)
            (outputSizeDim W p.pad_l p.pad_r p.kernel_w p.dilation_w p.stride_w)).getD
            (flat4 (outputSizeDim H p.pad_t p.pad_b p.kernel_h p.dilation_h p.stride_h)
              (outputSizeDim W p.pad_l p.pad_r p.kernel_w p.dilation_w p.stride_w)
              M n y x m) 0
          + ws.bias.data.getD m 0)
    ∧ (∀ (p : ConvParams) (ws ws' : Workspace) (N C H W M n y x m : Nat),
      ws.X.dims = [N, C, H, W] → ws.filter.dims.getD 0 0 = M →
      RunOnDeviceWithOrderNCHW p ws = .ok ws' →
      n < N →
      y < outputSizeDim H p.pad_t p.pad_b p.kernel_h p.dilation_h p.stride_h →
      x < outputSizeDim W p.pad_l p.pad_r p.kernel_w p.dilation_w p.stride_w →
      m < M →
      ws'.Y.data.getD
          (flat4 M (outputSizeDim H p.pad_t p.pad_b p.kernel_h p.dilation_h p.stride_h)
            (outputSizeDim W p.pad_l p.pad_r p.kernel_w p.dilation_w p.stride_w)
            n m y x) 0
        = (contractData p (shuffleInputNCHW ws.X.data N C H W)
            (shuffleKernelNCHW ws.filter.data M C p.kernel_h p.kernel_w)
            N H W C M
            (outputSizeDim H p.pad_t p.pad_b p.kernel_h p.dilation_h p.stride_h)
            (outputSizeDim W p.pad_l p.pad_r p.kernel_w p.dilation_w p.stride_w)).getD
            (flat4 (outputSizeDim H p.pad_t p.pad_b p.kernel_h p.dilation_h p.stride_h)
              (outputSizeDim W p.pad_l p.pad_r p.kernel_w p.dilation_w p.stride_w)
              M n y x m) 0
          + ws.bias.data.getD m 0) := by
  constructor
  · intro p ws ws' N H W C M n y x m hdX hM h hn hy hx hm
    obtain ⟨hchecks, hws'⟩ := runNHWC_ok_elim h
    subst hws'
    show (nhwcData p ws).getD _ 0 = _
    simp only [nhwcData]
    have e1 : ws.X.dims.getD 1 0 = H := by rw [hdX]; rfl
    have e2 : ws.X.dims.getD 2 0 = W := by rw [hdX]; rfl
    have e3 : ws.X.dims.getD 3 0 = C := by rw [hdX]; rfl
    have e0 : ws.X.dims.getD 0 0 = N := by rw [hdX]; rfl
    rw [e0, e1, e2, e3, hM]
    set oH := outputSizeDim H p.pad_t p.pad_b p.kernel_h p.dilation_h p.stride_h with hoH
    set oW := outputSizeDim W p.pad_l p.pad_r p.kernel_w p.dilation_w p.stride_w with hoW
    have hlen : flat4 oH oW M n y x m
        < (contractData p ws.X.data
            (temp_filter ws.filter.data (p.kernel_h * p.kernel_w * C) M)
            N H W C M oH oW).length := by
      rw [contractData_length]
      exact flat4_lt hn hy hx hm
    rw [biasAdd_entry ws.bias.data hlen]
    have hqm : flat4 oH oW M n y x m % M = m := by
      show (((n * oH + y) * oW + x) * M + m) % M = m
      exact encode_mod _ _ hm
    rw [hqm]
  · intro p ws ws' N C H W M n y x m hdX hM h hn hy hx hm
    obtain ⟨hchecks, hws'⟩ := runNCHW_ok_elim h
    subst hws'
    show (nchwData p ws).getD _ 0 = _
    simp only [nchwData]
    have e1 : ws.X.dims.getD 1 0 = C := by rw [hdX]; rfl
    have e2 : ws.X.dims.getD 2 0 = H := by rw [hdX]; rfl
    have e3 : ws.X.dims.getD 3 0 = W := by rw [hdX]; rfl
    have e0 : ws.X.dims.getD 0 0 = N := by rw [hdX]; rfl
    rw [e0, e1, e2, e3, hM]
    set oH := outputSizeDim H p.pad_t p.pad_b p.kernel_h p.dilation_h p.stride_h with hoH
    set oW := outputSizeDim W p.pad_l p.pad_r p.kernel_w p.dilation_w p.stride_w with hoW
    rw [shuffleOutput_entry _ hn hm hy hx]
    have hlen : flat4 oH oW M n y x m
        < (contractData p (shuffleInputNCHW ws.X.data N C H W)
            (shuffleKernelNCHW ws.filter.data M C p.kernel_h p.kernel_w)
            N H W C M oH oW).length := by
      rw [contractData_length]
      exact flat4_lt hn hy hx hm
    rw [biasAdd_entry ws.bias.data hlen]
    have hqm : flat4 oH oW M n y x m % M = m := by
      show (((n * oH + y) * oW + x) * M + m) % M = m
      exact encode_mod _ _ hm
    rw [hqm]

/-- C5: for every valid NCHW invocation, the orchestrator permutes the filter
from `(M, C, kH, kW)` to `(kH, kW, C, M)` and the input from `(N, C, H, W)`
to `(N, H, W, C)`, runs the channel-last pipeline on these permuted buffers,
and permutes the `(N, oH, oW, M)` result to `(N, M, oH, oW)` before writing
the caller's output; each permutation preserves every element's value and
the total element count. -/
theorem C5_nchw_orchestration (p : ConvParams) (ws ws' : Workspace)
    (N C H W M : Nat)
    (hdX : ws.X.dims = [N, C, H, W])
    (hM : ws.filter.dims.getD 0 0 = M)
    (hXlen : ws.X.data.length = N * C * H * W)
    (hFlen : ws.filter.data.length = M * C * p.kernel_h * p.kernel_w)
    (h : RunOnDeviceWithOrderNCHW p ws = .ok ws') :
    ws'.Y.data
      = shuffleOutputNCHW
          (biasAdd
            (contractData p (shuffleInputNCHW ws.X.data N C H W)
              (shuffleKernelNCHW ws.filter.data M C p.kernel_h p.kernel_w)
              N H W C M
              (outputSizeDim H p.pad_t p.pad_b p.kernel_h p.dilation_h p.stride_h)
              (outputSizeDim W p.pad_l p.pad_r p.kernel_w p.dilation_w p.stride_w))
            ws.bias.data M)
          N (outputSizeDim H p.pad_t p.pad_b p.kernel_h p.dilation_h p.stride_h)
          (outputSizeDim W p.pad_l p.pad_r p.kernel_w p.dilation_w p.stride_w) M
    ∧ (∀ n < N, ∀ y < H, ∀ x < W, ∀ c < C,
        (shuffleInputNCHW ws.X.data N C H W).getD (flat4 H W C n y x c) 0
          = ws.X.data.getD (flat4 C H W n c y x) 0)
    ∧ (shuffleInputNCHW ws.X.data N C H W).length = ws.X.data.length
    ∧ (∀ i < p.kernel_h, ∀ j < p.kernel_w, ∀ c < C, ∀ m < M,
        (shuffleKernelNCHW ws.filter.data M C p.kernel_h p.kernel_w).getD
            (flat4 p.kernel_w C M i j c m) 0
          = ws.filter.data.getD (flat4 C p.kernel_h p.kernel_w m c i j) 0)
    ∧ (shuffleKernelNCHW ws.filter.data M C p.kernel_h p.kernel_w).length
        = ws.filter.data.length
    ∧ (∀ n < N, ∀ m < M,
        ∀ y < outputSizeDim H p.pad_t p.pad_b p.kernel_h p.dilation_h p.stride_h,
        ∀ x < outputSizeDim W p.pad_l p.pad_r p.kernel_w p.dilation_w p.stride_w,
        ws'.Y.data.getD
            (flat4 M (outputSizeDim H p.pad_t p.pad_b p.kernel_h p.dilation_h p.stride_h)
              (outputSizeDim W p.pad_l p.pad_r p.kernel_w p.dilation_w p.stride_w)
              n m y x) 0
          = (biasAdd
              (contractData p (shuffleInputNCHW ws.X.data N C H W)
                (shuffleKernelNCHW ws.filter.data M C p.kernel_h p.kernel_w)
                N H W C M
                (outputSizeDim H p.pad_t p.pad_b p.kernel_h p.dilation_h p.stride_h)
                (outputSizeDim W p.pad_l p.pad_r p.kernel_w p.dilation_w p.stride_w))
              ws.bias.data M).getD
              (flat4 (outputSizeDim H p.pad_t p.pad_b p.kernel_h p.dilation_h p.stride_h)
                (outputSizeDim W p.pad_l p.pad_r p.kernel_w p.dilation_w p.stride_w)
                M n y x m) 0)
    ∧ ws'.Y.data.length
        = N * M * outputSizeDim H p.pad_t p.pad_b p.kernel_h p.dilation_h p.stride_h
            * outputSizeDim W p.pad_l p.pad_r p.kernel_w p.dilation_w p.stride_w := by
  obtain ⟨hchecks, hws'⟩ := runNCHW_ok_elim h
  subst hws'
  have e1 : ws.X.dims.getD 1 0 = C := by rw [hdX]; rfl
  have e2 : ws.X.dims.getD 2 0 = H := by rw [hdX]; rfl
  have e3 : ws.X.dims.getD 3 0 = W := by rw [hdX]; rfl
  have e0 : ws.X.dims.getD 0 0 = N := by rw [hdX]; rfl
  have hdata : nchwData p ws
      = shuffleOutputNCHW
          (biasAdd
            (contractData p (shuffleInputNCHW ws.X.data N C H W)
              (shuffleKernelNCHW ws.filter.data M C p.kernel_h p.kernel_w)
              N H W C M
              (outputSizeDim H p.pad_t p.pad_b p.kernel_h p.dilation_h p.stride_h)
              (outputSizeDim W p.pad_l p.pad_r p.kernel_w p.dilation_w p.stride_w))
            ws.bias.data M)
          N (outputSizeDim H p.pad_t p.pad_b p.kernel_h p.dilation_h p.stride_h)
          (outputSizeDim W p.pad_l p.pad_r p.kernel_w p.dilation_w p.stride_w) M := by
    simp only [nchwData]
    rw [e0, e1, e2, e3, hM]
  refine ⟨hdata, ?_, ?_, ?_, ?_, ?_, ?_⟩
  · intro n hn y hy x hx c hc
    exact shuffleInput_entry ws.X.data hn hy hx hc
  · rw [shuffleInput_length, hXlen]
    ring
  · intro i hi j hj c hc m' hm'
    exact shuffleKernel_entry ws.filter.data hi hj hc hm'
  · rw [shuffleKernel_length, hFlen]
    ring
  · intro n hn m' hm' y hy x hx
    show (nchwData p ws).getD _ 0 = _
    rw [hdata]
    exact shuffleOutput_entry _ hn hm' hy hx
  · show (nchwData p ws).length = _
    rw [hdata, shuffleOutput_length]

/-- C6: for every shape-valid invocation and every amount of padding, a
sampled coordinate outside the input's bounds never causes a failure or an
out-of-bounds access: an out-of-range sample is the well-defined value zero,
and an in-range sample is a read at a flat index strictly below the input
buffer's length (the only reads the patch extraction performs are through
`sampleNHWC`, at the coordinates supplied by `patchMatrixEntry` — here
quantified over all integer coordinates, hence over every padding amount). -/
theorem C6_padding_safety (Xd : List Int) (N H W C n c : Nat) (y x : Int)
    (hlen : Xd.length = N * H * W * C) (hn : n < N) (hc : c < C) :
    (¬(0 ≤ y ∧ y < (H : Int) ∧ 0 ≤ x ∧ x < (W : Int)) →
      sampleNHWC Xd H W C n y x c = 0)
    ∧ ((0 ≤ y ∧ y < (H : Int) ∧ 0 ≤ x ∧ x < (W : Int)) →
      ∃ hidx : flat4 H W C n y.toNat x.toNat c < Xd.length,
        sampleNHWC Xd H W C n y x c = Xd.get ⟨flat4 H W C n y.toNat x.toNat c, hidx⟩) := by
  constructor
  · intro hout
    unfold sampleNHWC
    rw [if_neg hout]
  · intro hin
    have h1 : y.toNat < H := by omega
    have h2 : x.toNat < W := by omega
    have hidx : flat4 H W C n y.toNat x.toNat c < Xd.length := by
      rw [hlen]
      exact flat4_lt hn h1 h2 hc
    refine ⟨hidx, ?_⟩
    unfold sampleNHWC
    rw [if_pos hin]
    rw [List.getD_eq_getElem?_getD, List.getElem?_eq_getElem hidx]
    rfl

/-- C7: for every invocation, the produced output height equals
`floor((H + pad_top + pad_bottom - dilation_h*(kernel_h-1) - 1) / stride_h) + 1`
(and symmetrically for the width); if the caller supplies an output buffer
whose dimensions disagree with this formula, the call fails with the
`inconsistentOutputSize` condition rather than computing a result.  The
output-size computation itself is modelled from the spec, because
`ConvPoolOpBase::SetOutputSize` is declared outside this source file. -/
theorem C7_output_size (p : ConvParams) (ws ws' : Workspace) :
    (RunOnDeviceWithOrderNHWC p ws = .ok ws' →
      ws'.Y.dims = [ws.X.dims.getD 0 0,
        (ws.X.dims.getD 1 0 + p.pad_t + p.pad_b
          - p.dilation_h * (p.kernel_h - 1) - 1) / p.stride_h + 1,
        (ws.X.dims.getD 2 0 + p.pad_l + p.pad_r
          - p.dilation_w * (p.kernel_w - 1) - 1) / p.stride_w + 1,
        ws.filter.dims.getD 0 0])
    ∧ (RunOnDeviceWithOrderNCHW p ws = .ok ws' →
      ws'.Y.dims = [ws.X.dims.getD 0 0, ws.filter.dims.getD 0 0,
        (ws.X.dims.getD 2 0 + p.pad_t + p.pad_b
          - p.dilation_h * (p.kernel_h - 1) - 1) / p.stride_h + 1,
        (ws.X.dims.getD 3 0 + p.pad_l + p.pad_r
          - p.dilation_w * (p.kernel_w - 1) - 1) / p.stride_w + 1])
    ∧ ((ws.filter.dims.length = 4
        ∧ ws.filter.dims.getD 1 0 = p.kernel_h
        ∧ ws.filter.dims.getD 2 0 = p.kernel_w
        ∧ ws.filter.dims.getD 3 0 = ws.X.dims.getD 3 0
        ∧ ws.bias.dims.length = 1
        ∧ ws.bias.dims.getD 0 0 = ws.filter.dims.getD 0 0) →
      ws.Y.dims ≠ [ws.X.dims.getD 0 0,
        (ws.X.dims.getD 1 0 + p.pad_t + p.pad_b
          - p.dilation_h * (p.kernel_h - 1) - 1) / p.stride_h + 1,
        (ws.X.dims.getD 2 0 + p.pad_l + p.pad_r
          - p.dilation_w * (p.kernel_w - 1) - 1) / p.stride_w + 1,
        ws.filter.dims.getD 0 0] →
      RunOnDeviceWithOrderNHWC p ws = .err .inconsistentOutputSize ws)
    ∧ ((ws.filter.dims.length = 4
        ∧ ws.filter.dims.getD 1 0 = ws.X.dims.getD 1 0
        ∧ ws.filter.dims.getD 2 0 = p.kernel_h
        ∧ ws.filter.dims.getD 3 0 = p.kernel_w
        ∧ ws.bias.dims.length = 1
        ∧ ws.bias.dims.getD 0 0 = ws.filter.dims.getD 0 0) →
      ws.Y.dims ≠ [ws.X.dims.getD 0 0, ws.filter.dims.getD 0 0,
        (ws.X.dims.getD 2 0 + p.pad_t + p.pad_b
          - p.dilation_h * (p.kernel_h - 1) - 1) / p.stride_h + 1,
        (ws.X.dims.getD 3 0 + p.pad_l + p.pad_r
          - p.dilation_w * (p.kernel_w - 1) - 1) / p.stride_w + 1] →
      RunOnDeviceWithOrderNCHW p ws = .err .inconsistentOutputSize ws) := by
  refine ⟨?_, ?_, ?_, ?_⟩
  · intro h
    obtain ⟨_, hws'⟩ := runNHWC_ok_elim h
    subst hws'
    show [_, outputSizeDim _ _ _ _ _ _, outputSizeDim _ _ _ _ _ _, _] = _
    simp only [outputSizeDim, Nat.sub_sub]
  · intro h
    obtain ⟨_, hws'⟩ := runNCHW_ok_elim h
    subst hws'
    show [_, _, outputSizeDim _ _ _ _ _ _, outputSizeDim _ _ _ _ _ _] = _
    simp only [outputSizeDim, Nat.sub_sub]
  · intro hchecks hne
    have hconv : [ws.X.dims.getD 0 0,
        (ws.X.dims.getD 1 0 + p.pad_t + p.pad_b
          - p.dilation_h * (p.kernel_h - 1) - 1) / p.stride_h + 1,
        (ws.X.dims.getD 2 0 + p.pad_l + p.pad_r
          - p.dilation_w * (p.kernel_w - 1) - 1) / p.stride_w + 1,
        ws.filter.dims.getD 0 0]
      = [ws.X.dims.getD 0 0,
        outputSizeDim (ws.X.dims.getD 1 0) p.pad_t p.pad_b p.kernel_h p.dilation_h p.stride_h,
        outputSizeDim (ws.X.dims.getD 2 0) p.pad_l p.pad_r p.kernel_w p.dilation_w p.stride_w,
        ws.filter.dims.getD 0 0] := by
      simp only [outputSizeDim, Nat.sub_sub]
    unfold RunOnDeviceWithOrderNHWC
    rw [if_pos hchecks, if_neg (hconv ▸ hne)]
  · intro hchecks hne
    have hconv : [ws.X.dims.getD 0 0, ws.filter.dims.getD 0 0,
        (ws.X.dims.getD 2 0 + p.pad_t + p.pad_b
          - p.dilation_h * (p.kernel_h - 1) - 1) / p.stride_h + 1,
        (ws.X.dims.getD 3 0 + p.pad_l + p.pad_r
          - p.dilation_w * (p.kernel_w - 1) - 1) / p.stride_w + 1]
      = [ws.X.dims.getD 0 0, ws.filter.dims.getD 0 0,
        outputSizeDim (ws.X.dims.getD 2 0) p.pad_t p.pad_b p.kernel_h p.dilation_h p.stride_h,
        outputSizeDim (ws.X.dims.getD 3 0) p.pad_l p.pad_r p.kernel_w p.dilation_w p.stride_w] := by
      simp only [outputSizeDim, Nat.sub_sub]
    unfold RunOnDeviceWithOrderNCHW
    rw [if_pos hchecks, if_neg (hconv ▸ hne)]

/-- C8 counterexample: the claim says the filter buffer as physically
supplied by the caller reshapes directly into the `(kH·kW·C, M)` contraction
matrix without any permutation of its elements.  Take `kH = kW = 1`, `C = 2`,
`M = 2` (so `K = kH·kW·C = 2`) and the caller buffer `[0, 1, 2, 3]`
(element `filter[m, i, j, c]` at flat `m*K + r`, `r = (i*kW + j)*C + c`): the matrix actually used by
the contraction — the row-major `(K, M)` view of `temp_filter`, read by
`contractData` at flat `r*M + m` — holds `2` at entry `(r, m) = (0, 1)`
(flat position `1`), while a direct reshape of the caller's buffer holds
`1` there.  The code really permutes (transposes) the filter first. -/
theorem C8_counterexample :
    (temp_filter [0, 1, 2, 3] 2 2).getD 1 0 ≠ ([0, 1, 2, 3] : List Int).getD 1 0 := by
  decide

/-- C8 (amended): in the NHWC path the caller's `(M, kH, kW, C)` filter is
first transposed into the `temp_filter` buffer, whose layout is
`(kH, kW, C, M)`; it is that temporary buffer that reshapes directly into the
`(kH·kW·C, M)` contraction matrix, so the matrix entry at row
`(i*kW + j)*C + c`, column `m` equals the caller's filter element
`[m, i, j, c]`. -/
theorem C8_filter_reshape_amended (fd : List Int) (p : ConvParams) (C M : Nat)
    (i j c m : Nat) (hi : i < p.kernel_h) (hj : j < p.kernel_w)
    (hc : c < C) (hm : m < M) :
    (temp_filter fd (p.kernel_h * p.kernel_w * C) M).getD
        (((i * p.kernel_w + j) * C + c) * M + m) 0
      = fd.getD (flat4 p.kernel_h p.kernel_w C m i j c) 0 := by
  have hr : (i * p.kernel_w + j) * C + c < p.kernel_h * p.kernel_w * C :=
    mul_add_lt (mul_add_lt hi hj) hc
  rw [temp_filter_entry fd hr hm]
  congr 1
  show m * (p.kernel_h * p.kernel_w * C) + ((i * p.kernel_w + j) * C + c)
    = ((m * p.kernel_h + i) * p.kernel_w + j) * C + c
  ring

/-! ### Concrete invocations used by the witnesses -/

/-- A minimal parameter set: 1×1 kernel, stride 1, dilation 1, no padding. -/
def pW : ConvParams := ⟨1, 1, 1, 1, 1, 1, 0, 0, 0, 0⟩

/-- A minimal valid workspace (all dimensions 1); because every dimension is
1 it is simultaneously a valid NHWC and a valid NCHW workspace. -/
def wsW : Workspace :=
  ⟨⟨[1, 1, 1, 1], [2]⟩, ⟨[1, 1, 1, 1], [3]⟩, ⟨[1], [5]⟩, ⟨[1, 1, 1, 1], [0]⟩⟩

/-- The workspace `wsW` after a successful run: `Y = [2 * 3 + 5] = [11]`. -/
def wsWout : Workspace :=
  ⟨⟨[1, 1, 1, 1], [2]⟩, ⟨[1, 1, 1, 1], [3]⟩, ⟨[1], [5]⟩, ⟨[1, 1, 1, 1], [11]⟩⟩

/-- `wsW` with a rank-3 filter: rejected by the shape checks. -/
def wsWbad : Workspace :=
  ⟨⟨[1, 1, 1, 1], [2]⟩, ⟨[1, 1, 1], [3]⟩, ⟨[1], [5]⟩, ⟨[1, 1, 1, 1], [0]⟩⟩

/-- `wsW` with filter spatial dimensions 2×2 that contradict the configured
1×1 kernel of `pW`. -/
def wsWbadK : Workspace :=
  ⟨⟨[1, 1, 1, 1], [2]⟩, ⟨[1, 2, 2, 1], [3, 3, 3, 3]⟩, ⟨[1], [5]⟩, ⟨[1, 1, 1, 1], [0]⟩⟩

/-- `wsW` with a wrongly-sized output buffer. -/
def wsWbadY : Workspace :=
  ⟨⟨[1, 1, 1, 1], [2]⟩, ⟨[1, 1, 1, 1], [3]⟩, ⟨[1], [5]⟩, ⟨[1, 2, 1, 1], [0, 0]⟩⟩

/-! ### Witnesses -/

/-- Witness for `C1_nhwc_output_formula` at the concrete invocation `wsW`. -/
theorem C1_nhwc_output_formula_witness :
    wsW.X.dims = [1, 1, 1, 1]
    ∧ wsW.filter.dims.getD 0 0 = 1
    ∧ RunOnDeviceWithOrderNHWC pW wsW = .ok wsWout
    ∧ 0 < 1
    ∧ 0 < outputSizeDim 1 pW.pad_t pW.pad_b pW.kernel_h pW.dilation_h pW.stride_h
    ∧ 0 < outputSizeDim 1 pW.pad_l pW.pad_r pW.kernel_w pW.dilation_w pW.stride_w
    ∧ wsWout.Y.data.getD
        (flat4 (outputSizeDim 1 pW.pad_t pW.pad_b pW.kernel_h pW.dilation_h pW.stride_h)
          (outputSizeDim 1 pW.pad_l pW.pad_r pW.kernel_w pW.dilation_w pW.stride_w)
          1 0 0 0 0) 0
      = wsW.bias.data.getD 0 0
        + ∑ i : Fin pW.kernel_h, ∑ j : Fin pW.kernel_w, ∑ c : Fin 1,
            sampleNHWC wsW.X.data 1 1 1 0
              (((0 : Nat) : Int) * (pW.stride_h : Int) - (pW.pad_t : Int)
                + (i.val : Int) * (pW.dilation_h : Int))
              (((0 : Nat) : Int) * (pW.stride_w : Int) - (pW.pad_l : Int)
                + (j.val : Int) * (pW.dilation_w : Int)) c.val
            * wsW.filter.data.getD (flat4 pW.kernel_h pW.kernel_w 1 0 i.val j.val c.val) 0 :=
  ⟨rfl, rfl, by decide, by decide, by decide, by decide,
    C1_nhwc_output_formula pW wsW wsWout 1 1 1 1 1 rfl rfl (by decide)
      0 0 0 0 (by decide) (by decide) (by decide) (by decide)⟩

/-- Witness for `C2_layout_equivalence`: with every dimension equal to 1 the
same workspace is valid for both entry points. -/
theorem C2_layout_equivalence_witness :
    (∀ n < 1, ∀ c < 1, ∀ y < 1, ∀ x < 1,
      wsW.X.data.getD (flat4 1 1 1 n c y x) 0
        = wsW.X.data.getD (flat4 1 1 1 n y x c) 0)
    ∧ (∀ m < 1, ∀ c < 1, ∀ i < pW.kernel_h, ∀ j < pW.kernel_w,
      wsW.filter.data.getD (flat4 1 pW.kernel_h pW.kernel_w m c i j) 0
        = wsW.filter.data.getD (flat4 pW.kernel_h pW.kernel_w 1 m i j c) 0)
    ∧ RunOnDeviceWithOrderNCHW pW wsW = .ok wsWout
    ∧ RunOnDeviceWithOrderNHWC pW wsW = .ok wsWout
    ∧ wsWout.Y.data.getD
        (flat4 1 (outputSizeDim 1 pW.pad_t pW.pad_b pW.kernel_h pW.dilation_h pW.stride_h)
          (outputSizeDim 1 pW.pad_l pW.pad_r pW.kernel_w pW.dilation_w pW.stride_w)
          0 0 0 0) 0
      = wsWout.Y.data.getD
          (flat4 (outputSizeDim 1 pW.pad_t pW.pad_b pW.kernel_h pW.dilation_h pW.stride_h)
            (outputSizeDim 1 pW.pad_l pW.pad_r pW.kernel_w pW.dilation_w pW.stride_w)
            1 0 0 0 0) 0 :=
  ⟨by decide, by decide, by decide, by decide,
    C2_layout_equivalence pW wsW wsWout wsW wsWout 1 1 1 1 1
      rfl rfl rfl rfl (by decide) (by decide) rfl (by decide) (by decide)
      0 0 0 0 (by decide) (by decide) (by decide) (by decide)⟩

/-- Witness for `C3_bias_added_once` at the concrete invocation `wsW`, for
both entry points. -/
theorem C3_bias_added_once_witness :
    RunOnDeviceWithOrderNHWC pW wsW = .ok wsWout
    ∧ RunOnDeviceWithOrderNCHW pW wsW = .ok wsWout
    ∧ wsWout.Y.data.getD
        (flat4 (outputSizeDim 1 pW.pad_t pW.pad_b pW.kernel_h pW.dilation_h pW.stride_h)
          (outputSizeDim 1 pW.pad_l pW.pad_r pW.kernel_w pW.dilation_w pW.stride_w)
          1 0 0 0 0) 0
      = (contractData pW wsW.X.data
          (temp_filter wsW.filter.data (pW.kernel_h * pW.kernel_w * 1) 1)
          1 1 1 1 1
          (outputSizeDim 1 pW.pad_t pW.pad_b pW.kernel_h pW.dilation_h pW.stride_h)
          (outputSizeDim 1 pW.pad_l pW.pad_r pW.kernel_w pW.dilation_w pW.stride_w)).getD
          (flat4 (outputSizeDim 1 pW.pad_t pW.pad_b pW.kernel_h pW.dilation_h pW.stride_h)
            (outputSizeDim 1 pW.pad_l pW.pad_r pW.kernel_w pW.dilation_w pW.stride_w)
            1 0 0 0 0) 0
        + wsW.bias.data.getD 0 0
    ∧ wsWout.Y.data.getD
        (flat4 1 (outputSizeDim 1 pW.pad_t pW.pad_b pW.kernel_h pW.dilation_h pW.stride_h)
          (outputSizeDim 1 pW.pad_l pW.pad_r pW.kernel_w pW.dilation_w pW.stride_w)
          0 0 0 0) 0
      = (contractData pW (shuffleInputNCHW wsW.X.data 1 1 1 1)
          (shuffleKernelNCHW wsW.filter.data 1 1 pW.kernel_h pW.kernel_w)
          1 1 1 1 1
          (outputSizeDim 1 pW.pad_t pW.pad_b pW.kernel_h pW.dilation_h pW.stride_h)
          (outputSizeDim 1 pW.pad_l pW.pad_r pW.kernel_w pW.dilation_w pW.stride_w)).getD
          (flat4 (outputSizeDim 1 pW.pad_t pW.pad_b pW.kernel_h pW.dilation_h pW.stride_h)
            (outputSizeDim 1 pW.pad_l pW.pad_r pW.kernel_w pW.dilation_w pW.stride_w)
            1 0 0 0 0) 0
        + wsW.bias.data.getD 0 0 :=
  ⟨by decide, by decide,
    C3_bias_added_once.1 pW wsW wsWout 1 1 1 1 1 0 0 0 0 rfl rfl (by decide)
      (by decide) (by decide) (by decide) (by decide),
    C3_bias_added_once.2 pW wsW wsWout 1 1 1 1 1 0 0 0 0 rfl rfl (by decide)
      (by decide) (by decide) (by decide) (by decide)⟩

/-- Witness for `C4_invalid_shape`: a rank-3 filter is rejected by both entry
points and the workspace (in particular the output buffer) is untouched. -/
theorem C4_invalid_shape_witness :
    (wsWbad.filter.dims.length ≠ 4 ∨ wsWbad.bias.dims.length ≠ 1
      ∨ wsWbad.filter.dims.getD 3 0 ≠ wsWbad.X.dims.getD 3 0
      ∨ wsWbad.bias.dims.getD 0 0 ≠ wsWbad.filter.dims.getD 0 0)
    ∧ (wsWbad.filter.dims.length ≠ 4 ∨ wsWbad.bias.dims.length ≠ 1
      ∨ wsWbad.filter.dims.getD 1 0 ≠ wsWbad.X.dims.getD 1 0
      ∨ wsWbad.bias.dims.getD 0 0 ≠ wsWbad.filter.dims.getD 0 0)
    ∧ RunOnDeviceWithOrderNHWC pW wsWbad = .err .invalidShape wsWbad
    ∧ RunOnDeviceWithOrderNCHW pW wsWbad = .err .invalidShape wsWbad :=
  ⟨by decide, by decide,
    (C4_invalid_shape pW wsWbad).1 (by decide),
    (C4_invalid_shape pW wsWbad).2 (by decide)⟩

/-- Witness for `C5_nchw_orchestration` at the concrete invocation `wsW`. -/
theorem C5_nchw_orchestration_witness :
    wsW.X.dims = [1, 1, 1, 1]
    ∧ wsW.X.data.length = 1 * 1 * 1 * 1
    ∧ wsW.filter.data.length = 1 * 1 * pW.kernel_h * pW.kernel_w
    ∧ RunOnDeviceWithOrderNCHW pW wsW = .ok wsWout
    ∧ (wsWout.Y.data
        = shuffleOutputNCHW
            (biasAdd
              (contractData pW (shuffleInputNCHW wsW.X.data 1 1 1 1)
                (shuffleKernelNCHW wsW.filter.data 1 1 pW.kernel_h pW.kernel_w)
                1 1 1 1 1
                (outputSizeDim 1 pW.pad_t pW.pad_b pW.kernel_h pW.dilation_h pW.stride_h)
                (outputSizeDim 1 pW.pad_l pW.pad_r pW.kernel_w pW.dilation_w pW.stride_w))
              wsW.bias.data 1)
            1 (outputSizeDim 1 pW.pad_t pW.pad_b pW.kernel_h pW.dilation_h pW.stride_h)
            (outputSizeDim 1 pW.pad_l pW.pad_r pW.kernel_w pW.dilation_w pW.stride_w) 1
      ∧ (∀ n < 1, ∀ y < 1, ∀ x < 1, ∀ c < 1,
          (shuffleInputNCHW wsW.X.data 1 1 1 1).getD (flat4 1 1 1 n y x c) 0
            = wsW.X.data.getD (flat4 1 1 1 n c y x) 0)
      ∧ (shuffleInputNCHW wsW.X.data 1 1 1 1).length = wsW.X.data.length
      ∧ (∀ i < pW.kernel_h, ∀ j < pW.kernel_w, ∀ c < 1, ∀ m < 1,
          (shuffleKernelNCHW wsW.filter.data 1 1 pW.kernel_h pW.kernel_w).getD
              (flat4 pW.kernel_w 1 1 i j c m) 0
            = wsW.filter.data.getD (flat4 1 pW.kernel_h pW.kernel_w m c i j) 0)
      ∧ (shuffleKernelNCHW wsW.filter.data 1 1 pW.kernel_h pW.kernel_w).length
          = wsW.filter.data.length
      ∧ (∀ n < 1, ∀ m < 1,
          ∀ y < outputSizeDim 1 pW.pad_t pW.pad_b pW.kernel_h pW.dilation_h pW.stride_h,
          ∀ x < outputSizeDim 1 pW.pad_l pW.pad_r pW.kernel_w pW.dilation_w pW.stride_w,
          wsWout.Y.data.getD
              (flat4 1 (outputSizeDim 1 pW.pad_t pW.pad_b pW.kernel_h pW.dilation_h pW.stride_h)
                (outputSizeDim 1 pW.pad_l pW.pad_r pW.kernel_w pW.dilation_w pW.stride_w)
                n m y x) 0
            = (biasAdd
                (contractData pW (shuffleInputNCHW wsW.X.data 1 1 1 1)
                  (shuffleKernelNCHW wsW.filter.data 1 1 pW.kernel_h pW.kernel_w)
                  1 1 1 1 1
                  (outputSizeDim 1 pW.pad_t pW.pad_b pW.kernel_h pW.dilation_h pW.stride_h)
                  (outputSizeDim 1 pW.pad_l pW.pad_r pW.kernel_w pW.dilation_w pW.stride_w))
                wsW.bias.data 1).getD
                (flat4 (outputSizeDim 1 pW.pad_t pW.pad_b pW.kernel_h pW.dilation_h pW.stride_h)
                  (outputSizeDim 1 pW.pad_l pW.pad_r pW.kernel_w pW.dilation_w pW.stride_w)
                  1 n y x m) 0)
      ∧ wsWout.Y.data.length
          = 1 * 1 * outputSizeDim 1 pW.pad_t pW.pad_b pW.kernel_h pW.dilation_h pW.stride_h
              * outputSizeDim 1 pW.pad_l pW.pad_r pW.kernel_w pW.dilation_w pW.stride_w) :=
  ⟨rfl, rfl, by decide, by decide,
    C5_nchw_orchestration pW wsW wsWout 1 1 1 1 1 rfl rfl rfl (by decide) (by decide)⟩

/-- Witness for `C6_padding_safety`: an in-range sample of a singleton input
is an in-bounds read; the instantiated statement also carries the
out-of-range-gives-zero implication. -/
theorem C6_padding_safety_witness :
    ([7] : List Int).length = 1 * 1 * 1 * 1
    ∧ 0 < 1
    ∧ ((¬(0 ≤ (0 : Int) ∧ (0 : Int) < ((1 : Nat) : Int)
          ∧ 0 ≤ (0 : Int) ∧ (0 : Int) < ((1 : Nat) : Int)) →
        sampleNHWC [7] 1 1 1 0 0 0 0 = 0)
      ∧ ((0 ≤ (0 : Int) ∧ (0 : Int) < ((1 : Nat) : Int)
          ∧ 0 ≤ (0 : Int) ∧ (0 : Int) < ((1 : Nat) : Int)) →
        ∃ hidx : flat4 1 1 1 0 (0 : Int).toNat (0 : Int).toNat 0 < ([7] : List Int).length,
          sampleNHWC [7] 1 1 1 0 0 0 0
            = ([7] : List Int).get ⟨flat4 1 1 1 0 (0 : Int).toNat (0 : Int).toNat 0, hidx⟩)) :=
  ⟨rfl, by decide, C6_padding_safety [7] 1 1 1 1 0 0 0 0 rfl (by decide) (by decide)⟩

/-- Witness for `C7_output_size`: the computed output shape of a successful
run matches the formula, and a wrongly-sized output buffer makes both entry
points fail with `inconsistentOutputSize`. -/
theorem C7_output_size_witness :
    RunOnDeviceWithOrderNHWC pW wsW = .ok wsWout
    ∧ wsWout.Y.dims = [wsW.X.dims.getD 0 0,
        (wsW.X.dims.getD 1 0 + pW.pad_t + pW.pad_b
          - pW.dilation_h * (pW.kernel_h - 1) - 1) / pW.stride_h + 1,
        (wsW.X.dims.getD 2 0 + pW.pad_l + pW.pad_r
          - pW.dilation_w * (pW.kernel_w - 1) - 1) / pW.stride_w + 1,
        wsW.filter.dims.getD 0 0]
    ∧ (wsWbadY.filter.dims.length = 4
        ∧ wsWbadY.filter.dims.getD 1 0 = pW.kernel_h
        ∧ wsWbadY.filter.dims.getD 2 0 = pW.kernel_w
        ∧ wsWbadY.filter.dims.getD 3 0 = wsWbadY.X.dims.getD 3 0
        ∧ wsWbadY.bias.dims.length = 1
        ∧ wsWbadY.bias.dims.getD 0 0 = wsWbadY.filter.dims.getD 0 0)
    ∧ wsWbadY.Y.dims ≠ [wsWbadY.X.dims.getD 0 0,
        (wsWbadY.X.dims.getD 1 0 + pW.pad_t + pW.pad_b
          - pW.dilation_h * (pW.kernel_h - 1) - 1) / pW.stride_h + 1,
        (wsWbadY.X.dims.getD 2 0 + pW.pad_l + pW.pad_r
          - pW.dilation_w * (pW.kernel_w - 1) - 1) / pW.stride_w + 1,
        wsWbadY.filter.dims.getD 0 0]
    ∧ RunOnDeviceWithOrderNHWC pW wsWbadY = .err .inconsistentOutputSize wsWbadY
    ∧ RunOnDeviceWithOrderNCHW pW wsWbadY = .err .inconsistentOutputSize wsWbadY :=
  ⟨by decide, (C7_output_size pW wsW wsWout).1 (by decide),
    by decide, by decide,
    (C7_output_size pW wsWbadY wsWbadY).2.2.1 (by decide) (by decide),
    (C7_output_size pW wsWbadY wsWbadY).2.2.2 (by decide) (by decide)⟩

/-- Witness for `C8_filter_reshape_amended` at the counterexample's input:
entry `(r, m) = (0, 1)` of the contraction matrix is the caller's filter
element `[1, 0, 0, 0]`. -/
theorem C8_filter_reshape_amended_witness :
    0 < pW.kernel_h ∧ 0 < pW.kernel_w ∧ 0 < 2 ∧ 1 < 2
    ∧ (temp_filter [0, 1, 2, 3] (pW.kernel_h * pW.kernel_w * 2) 2).getD
        (((0 * pW.kernel_w + 0) * 2 + 0) * 2 + 1) 0
      = ([0, 1, 2, 3] : List Int).getD (flat4 pW.kernel_h pW.kernel_w 2 1 0 0 0) 0 :=
  ⟨by decide, by decide, by decide, by decide,
    C8_filter_reshape_amended [0, 1, 2, 3] pW 2 2 0 0 0 1
      (by decide) (by decide) (by decide) (by decide)⟩

/-- Witness for `C9_kernel_size_checks`: a filter with 2×2 spatial dimensions
against a configured 1×1 kernel is rejected by both entry points. -/
theorem C9_kernel_size_checks_witness :
    (wsWbadK.filter.dims.getD 1 0 ≠ pW.kernel_h ∨ wsWbadK.filter.dims.getD 2 0 ≠ pW.kernel_w)
    ∧ (wsWbadK.filter.dims.getD 2 0 ≠ pW.kernel_h ∨ wsWbadK.filter.dims.getD 3 0 ≠ pW.kernel_w)
    ∧ RunOnDeviceWithOrderNHWC pW wsWbadK = .err .invalidShape wsWbadK
    ∧ RunOnDeviceWithOrderNCHW pW wsWbadK = .err .invalidShape wsWbadK :=
  ⟨by decide, by decide,
    (C9_kernel_size_checks pW wsWbadK).1 (by decide),
    (C9_kernel_size_checks pW wsWbadK).2 (by decide)⟩
